import Mathlib

/-!
Shallow Lean embedding of the adapter fine-tuning utilities of this
repository: the adapter-v2 parameter utility (lit_parrot/adapter_v2.py),
the LoRA-merge CLI (scripts/merge_lora.py), the generation CLI's response
extraction (generate_adapter.py), and the gradient-accumulation and
batching logic of the two trainers (finetune/adapter.py and
xla/finetune/adapter.py), together with theorems checking the
specification's claims against it.

Modelling conventions: Python strings are `List Char`; tensors appearing
in state dicts are opaque values; file contents are byte lists; exact
rational arithmetic stands in for tensor arithmetic where values matter.
-/

namespace AdapterV2

/-- Python's substring containment test `sub in s`, on `List Char` strings. -/
def containsSub (sub : List Char) : List Char → Bool
  | [] => sub.isEmpty
  | c :: rest => sub.isPrefixOf (c :: rest) || containsSub sub rest

theorem containsSub_iff_infix (sub l : List Char) :
    containsSub sub l = true ↔ sub <:+: l := by
  induction l with
  | nil => simp [containsSub, List.isEmpty_iff, List.infix_nil]
  | cons c rest ih =>
    simp [containsSub, List.infix_cons_iff, List.isPrefixOf_iff_prefix, ih]

/-- The seven marker substrings of `mark_only_adapter_v2_as_trainable`
(lit_parrot/adapter_v2.py line 17). -/
def substrings : List (List Char) :=
  ["adapter_wte".toList, "gating_factor".toList, "adapter_scale".toList,
   "adapter_bias".toList, "norm_1".toList, "norm_2".toList, "ln_f".toList]

/-- The per-parameter trainability rule of lit_parrot/adapter_v2.py line 18:
`any(s in name for s in substrings)`. -/
def adapter_v2_trainable (name : List Char) : Bool :=
  substrings.any (fun s => containsSub s name)

/-- `mark_only_adapter_v2_as_trainable` (lit_parrot/adapter_v2.py lines
13-18).  A model is embedded as its list of named parameters, each carrying
its requires_grad flag; the function sets every flag from the name alone. -/
def mark_only_adapter_v2_as_trainable (params : List (List Char × Bool)) :
    List (List Char × Bool) :=
  params.map (fun p => (p.1, adapter_v2_trainable p.1))

/-- The four marker substrings of `adapter_v2_state_from_state_dict`
(lit_parrot/adapter_v2.py line 22). -/
def save_substrings : List (List Char) :=
  ["adapter_wte".toList, "gating_factor".toList, "adapter_scale".toList,
   "adapter_bias".toList]

/-- `adapter_v2_state_from_state_dict` (lit_parrot/adapter_v2.py lines
20-24): filters a state dict (a name-to-tensor association list, tensor
values opaque) to the entries whose name contains one of the four save
markers. -/
def adapter_v2_state_from_state_dict {α : Type} (state_dict : List (List Char × α)) :
    List (List Char × α) :=
  state_dict.filter (fun kv => save_substrings.any (fun s => containsSub s kv.1))

/-- A linear sublayer over exact rationals: `weight` has `nout` rows (the
output width, `layer.weight.shape[0]`) and `nin` columns, and the frozen
bias of `F.linear` may be absent. -/
structure LinearLayer (nin nout : Nat) where
  weight : Fin nout → Fin nin → ℚ
  bias : Option (Fin nout → ℚ)

/-- `F.linear(input, weight, bias)`: the layer's original affine transform. -/
def linearForward {nin nout : Nat} (layer : LinearLayer nin nout)
    (input : Fin nin → ℚ) : Fin nout → ℚ :=
  fun i => (∑ j, layer.weight i j * input j) +
    (match layer.bias with
     | some b => b i
     | none => 0)

/-- A linear sublayer after `adapter_v2_linear_with_bias_and_scale`: the
original layer with the two attached vectors (each indexed by the output
width) and their requires_grad flags. -/
structure AdapterV2Linear (nin nout : Nat) where
  base : LinearLayer nin nout
  adapter_bias : Fin nout → ℚ
  adapter_scale : Fin nout → ℚ
  adapter_bias_requires_grad : Bool
  adapter_scale_requires_grad : Bool

/-- `adapter_v2_new_forward` (lit_parrot/adapter_v2.py lines 26-27):
`adapter_scale * (F.linear(input, weight, bias) + adapter_bias)`. -/
def adapter_v2_new_forward {nin nout : Nat} (l : AdapterV2Linear nin nout)
    (input : Fin nin → ℚ) : Fin nout → ℚ :=
  fun i => l.adapter_scale i * (linearForward l.base input i + l.adapter_bias i)

/-- `adapter_v2_linear_with_bias_and_scale` (lit_parrot/adapter_v2.py lines
29-34): attaches `adapter_bias = zeros(weight.shape[0])` and
`adapter_scale = ones(weight.shape[0])`, both with requires_grad=True, and
installs `adapter_v2_new_forward` as the forward computation. -/
def adapter_v2_linear_with_bias_and_scale {nin nout : Nat}
    (layer : LinearLayer nin nout) : AdapterV2Linear nin nout :=
  { base := layer
    adapter_bias := fun _ => 0
    adapter_scale := fun _ => 1
    adapter_bias_requires_grad := true
    adapter_scale_requires_grad := true }

end AdapterV2

/-- Claim C4: after `mark_only_adapter_v2_as_trainable`, the parameter
names are unchanged and in the same order, every parameter's requires_grad
flag is true if and only if its name contains at least one of the seven
marker substrings, there are exactly seven markers, and re-running the
function on the resulting named-parameter set yields the same
trainable/frozen partition. -/
theorem C4_mark_only_adapter_v2_as_trainable_correct
    (params : List (List Char × Bool)) :
    (AdapterV2.mark_only_adapter_v2_as_trainable params).map Prod.fst
        = params.map Prod.fst
    ∧ (∀ p ∈ AdapterV2.mark_only_adapter_v2_as_trainable params,
        p.2 = true ↔ ∃ s ∈ AdapterV2.substrings, s <:+: p.1)
    ∧ AdapterV2.substrings.length = 7
    ∧ AdapterV2.mark_only_adapter_v2_as_trainable
        (AdapterV2.mark_only_adapter_v2_as_trainable params)
      = AdapterV2.mark_only_adapter_v2_as_trainable params := by
  refine ⟨?_, ?_, rfl, ?_⟩
  · simp [AdapterV2.mark_only_adapter_v2_as_trainable]
  · intro p hp
    simp only [AdapterV2.mark_only_adapter_v2_as_trainable, List.mem_map] at hp
    obtain ⟨q, -, rfl⟩ := hp
    simp [AdapterV2.adapter_v2_trainable, List.any_eq_true,
      AdapterV2.containsSub_iff_infix]
  · simp [AdapterV2.mark_only_adapter_v2_as_trainable, List.map_map]

/-- Claim C5: `adapter_v2_state_from_state_dict` returns exactly the
entries of the input whose names contain one of the four persisted-adapter
markers, as a sublist (values unchanged, order kept, no side effects); an
entry that the v2 trainability rule marks trainable but whose name matches
none of the four save markers (e.g. a normalization-layer weight) is
excluded. -/
theorem C5_adapter_v2_state_from_state_dict_correct {α : Type}
    (state_dict : List (List Char × α)) :
    (∀ kv, kv ∈ AdapterV2.adapter_v2_state_from_state_dict state_dict
        ↔ kv ∈ state_dict ∧ ∃ s ∈ AdapterV2.save_substrings, s <:+: kv.1)
    ∧ (AdapterV2.adapter_v2_state_from_state_dict state_dict).Sublist state_dict
    ∧ (∀ kv ∈ state_dict, AdapterV2.adapter_v2_trainable kv.1 = true →
        (∀ s ∈ AdapterV2.save_substrings, ¬ s <:+: kv.1) →
        kv ∉ AdapterV2.adapter_v2_state_from_state_dict state_dict) := by
  refine ⟨?_, List.filter_sublist _, ?_⟩
  · intro kv
    simp [AdapterV2.adapter_v2_state_from_state_dict, List.mem_filter,
      List.any_eq_true, AdapterV2.containsSub_iff_infix]
  · intro kv _ _ hnone hmem
    simp only [AdapterV2.adapter_v2_state_from_state_dict, List.mem_filter,
      List.any_eq_true, AdapterV2.containsSub_iff_infix] at hmem
    obtain ⟨-, s, hs, hinf⟩ := hmem
    exact hnone s hs hinf

/-- Claim C10: immediately after `adapter_v2_linear_with_bias_and_scale`,
the attached adapter_bias is all zeros and the attached adapter_scale is
all ones (each indexed by the layer's output width), both are marked
trainable, and the replaced forward computation
`scale * (linear(input) + bias)` equals the original layer's output on
every input. -/
theorem C10_adapter_v2_linear_init_output_preserving {nin nout : Nat}
    (layer : AdapterV2.LinearLayer nin nout) (input : Fin nin → ℚ) :
    (∀ i, (AdapterV2.adapter_v2_linear_with_bias_and_scale layer).adapter_bias i = 0)
    ∧ (∀ i, (AdapterV2.adapter_v2_linear_with_bias_and_scale layer).adapter_scale i = 1)
    ∧ (AdapterV2.adapter_v2_linear_with_bias_and_scale layer).adapter_bias_requires_grad = true
    ∧ (AdapterV2.adapter_v2_linear_with_bias_and_scale layer).adapter_scale_requires_grad = true
    ∧ AdapterV2.adapter_v2_new_forward
        (AdapterV2.adapter_v2_linear_with_bias_and_scale layer) input
      = AdapterV2.linearForward layer input := by
  refine ⟨fun i => rfl, fun i => rfl, rfl, rfl, funext fun i => ?_⟩
  simp [AdapterV2.adapter_v2_new_forward, AdapterV2.adapter_v2_linear_with_bias_and_scale]

namespace FinetuneAdapter

/-- Cumulative optimizer-side effect counters of the standard trainer's
train loop (finetune/adapter.py). -/
structure TrainState where
  step_count : Nat
  optimizer_steps : Nat
  grad_clears : Nat
  scheduler_steps : Nat
deriving DecidableEq

/-- Modelled from the spec: gradient_accumulation_steps =
global_batch_size / (micro_batch_size * device_count), required to divide
evenly.  (The definition of TrainArgs.gradient_accumulation_iters lives in
lit_gpt/args.py, which is not among the included sources; the trainer
calls it at finetune/adapter.py lines 209 and 215.) -/
def gradient_accumulation_iters (global_batch_size micro_batch_size devices : Nat) : Nat :=
  global_batch_size / (micro_batch_size * devices)

/-- finetune/adapter.py line 209: an iteration accumulates gradients iff
iter_num % gradient_accumulation_iters != 0. -/
def is_accumulating (iter_num gas : Nat) : Bool :=
  iter_num % gas != 0

/-- finetune/adapter.py lines 209-221: on a non-accumulating iteration the
loop performs one optimizer step, one gradient clear (zero_grad), one
scheduler step and one step-counter increment; on an accumulating
iteration it performs none of these. -/
def train_iteration (gas iter_num : Nat) (st : TrainState) : TrainState :=
  if is_accumulating iter_num gas then st
  else
    { step_count := st.step_count + 1
      optimizer_steps := st.optimizer_steps + 1
      grad_clears := st.grad_clears + 1
      scheduler_steps := st.scheduler_steps + 1 }

/-- finetune/adapter.py line 198: the loop body run for iterations 1..n
(iterations are numbered from 1). -/
def train_loop (gas : Nat) : Nat → TrainState → TrainState
  | 0, st => st
  | n + 1, st => train_iteration gas (n + 1) (train_loop gas n st)

theorem train_loop_eq (gas n : Nat) :
    train_loop gas n ⟨0, 0, 0, 0⟩ = ⟨n / gas, n / gas, n / gas, n / gas⟩ := by
  induction n with
  | zero => simp [train_loop]
  | succ n ih =>
    rw [train_loop, ih, train_iteration]
    by_cases h : (n + 1) % gas = 0
    · have hd : gas ∣ n + 1 := Nat.dvd_of_mod_eq_zero h
      simp [is_accumulating, h, Nat.succ_div, hd]
    · have hd : ¬gas ∣ n + 1 := fun hdvd => h (Nat.mod_eq_zero_of_dvd hdvd)
      simp [is_accumulating, h, Nat.succ_div, hd]

end FinetuneAdapter

namespace XlaFinetuneAdapter

/-- xla/finetune/adapter.py line 36: fixed module-level constant. -/
def batch_size : Nat := 1

/-- xla/finetune/adapter.py line 37: fixed module-level constant. -/
def micro_batch_size : Nat := 1

/-- xla/finetune/adapter.py line 38: batch_size // micro_batch_size. -/
def gradient_accumulation_iters : Nat := batch_size / micro_batch_size

/-- xla/finetune/adapter.py line 161:
(iter_num + 1) % gradient_accumulation_iters != 0 (this loop numbers
iterations from 0). -/
def is_accumulating (iter_num : Nat) : Bool :=
  (iter_num + 1) % gradient_accumulation_iters != 0

/-- Cumulative optimizer-side effect counters of the accelerator-backend
trainer's loop (no schedule object exists in this variant). -/
structure XlaTrainState where
  step_count : Nat
  optimizer_steps : Nat
  grad_clears : Nat
deriving DecidableEq

/-- xla/finetune/adapter.py lines 161-176: on a non-accumulating iteration
the loop performs one optimizer step, one gradient clear and one
step-counter increment; an accumulating iteration performs none and only
flushes the compiled graph. -/
def train_iteration (iter_num : Nat) (st : XlaTrainState) : XlaTrainState :=
  if is_accumulating iter_num then st
  else
    { step_count := st.step_count + 1
      optimizer_steps := st.optimizer_steps + 1
      grad_clears := st.grad_clears + 1 }

end XlaFinetuneAdapter

/-- Claim C3: in the standard trainer's loop, an iteration is accumulating
iff iter_num mod gradient_accumulation_iters is nonzero; accumulating
iterations perform no optimizer step, gradient clear, schedule step or
step-counter increment, and non-accumulating iterations perform exactly
one of each; over iterations 1..n the loop performs exactly n / gas of
each; and for devices=2, global_batch_size=64, micro_batch_size=4 the
accumulation count is 8 and exactly the iterations divisible by 8 step the
optimizer. -/
theorem C3_train_gradient_accumulation
    (global_batch_size micro_batch_size devices gas iter n : Nat)
    (st : FinetuneAdapter.TrainState)
    (_hgas : gas = FinetuneAdapter.gradient_accumulation_iters
      global_batch_size micro_batch_size devices) :
    (FinetuneAdapter.is_accumulating iter gas = true ↔ iter % gas ≠ 0)
    ∧ (iter % gas ≠ 0 → FinetuneAdapter.train_iteration gas iter st = st)
    ∧ (iter % gas = 0 → FinetuneAdapter.train_iteration gas iter st =
        ⟨st.step_count + 1, st.optimizer_steps + 1,
         st.grad_clears + 1, st.scheduler_steps + 1⟩)
    ∧ FinetuneAdapter.train_loop gas n ⟨0, 0, 0, 0⟩ = ⟨n / gas, n / gas, n / gas, n / gas⟩
    ∧ FinetuneAdapter.gradient_accumulation_iters 64 4 2 = 8
    ∧ (FinetuneAdapter.is_accumulating iter 8 = false ↔ iter % 8 = 0) := by
  refine ⟨by simp [FinetuneAdapter.is_accumulating], ?_, ?_,
    FinetuneAdapter.train_loop_eq gas n, rfl,
    by simp [FinetuneAdapter.is_accumulating]⟩
  · intro h
    simp [FinetuneAdapter.train_iteration, FinetuneAdapter.is_accumulating, h]
  · intro h
    simp [FinetuneAdapter.train_iteration, FinetuneAdapter.is_accumulating, h]

/-- Witness for C3 at global_batch_size=64, micro_batch_size=4, devices=2,
iteration 16, 20 iterations, a concrete starting counter state. -/
theorem C3_train_gradient_accumulation_witness :
    8 = FinetuneAdapter.gradient_accumulation_iters 64 4 2
    ∧ ((FinetuneAdapter.is_accumulating 16 8 = true ↔ 16 % 8 ≠ 0)
    ∧ (16 % 8 ≠ 0 → FinetuneAdapter.train_iteration 8 16 ⟨3, 3, 3, 3⟩ = ⟨3, 3, 3, 3⟩)
    ∧ (16 % 8 = 0 → FinetuneAdapter.train_iteration 8 16 ⟨3, 3, 3, 3⟩ = ⟨3 + 1, 3 + 1, 3 + 1, 3 + 1⟩)
    ∧ FinetuneAdapter.train_loop 8 20 ⟨0, 0, 0, 0⟩ = ⟨20 / 8, 20 / 8, 20 / 8, 20 / 8⟩
    ∧ FinetuneAdapter.gradient_accumulation_iters 64 4 2 = 8
    ∧ (FinetuneAdapter.is_accumulating 16 8 = false ↔ 16 % 8 = 0)) :=
  ⟨by decide, C3_train_gradient_accumulation 64 4 2 8 16 20 ⟨3, 3, 3, 3⟩ (by decide)⟩

/-- Claim C9: with the accelerator-backend trainer's fixed constants
(batch size 1, micro-batch size 1) the computed accumulation count is
exactly 1 (and positive, as the module-level assert requires), every
iteration is classified as non-accumulating, and every iteration performs
exactly one optimizer step, one gradient clear and one step-counter
increment. -/
theorem C9_xla_every_iteration_steps
    (iter_num : Nat) (st : XlaFinetuneAdapter.XlaTrainState) :
    XlaFinetuneAdapter.gradient_accumulation_iters = 1
    ∧ 0 < XlaFinetuneAdapter.gradient_accumulation_iters
    ∧ XlaFinetuneAdapter.is_accumulating iter_num = false
    ∧ XlaFinetuneAdapter.train_iteration iter_num st =
        ⟨st.step_count + 1, st.optimizer_steps + 1, st.grad_clears + 1⟩ := by
  refine ⟨rfl, by decide, ?_, ?_⟩
  · simp [XlaFinetuneAdapter.is_accumulating, XlaFinetuneAdapter.gradient_accumulation_iters,
      XlaFinetuneAdapter.batch_size, XlaFinetuneAdapter.micro_batch_size, Nat.mod_one]
  · simp [XlaFinetuneAdapter.train_iteration, XlaFinetuneAdapter.is_accumulating,
      XlaFinetuneAdapter.gradient_accumulation_iters, XlaFinetuneAdapter.batch_size,
      XlaFinetuneAdapter.micro_batch_size, Nat.mod_one]

namespace FinetuneAdapter

/-- A training/validation example: a token sequence and its aligned label
sequence (finetune/adapter.py lines 306-307 read these two record
fields). -/
structure Example where
  input_ids : List Int
  labels : List Int
deriving DecidableEq

/-- `get_longest_seq_length` (finetune/adapter.py lines 339-344): the
maximum input_ids length over the collection and the first index attaining
it.  Python's `max` raises on an empty collection; the empty case here
yields (0, 0) and the claim only quantifies over non-empty collections. -/
def get_longest_seq_length (data : List Example) : Nat × Nat :=
  let lengths := data.map (fun d => d.input_ids.length)
  let longest_seq_length := lengths.max?.getD 0
  (longest_seq_length, lengths.indexOf longest_seq_length)

theorem getD_indexOf (a : Nat) (l : List Nat) (h : a ∈ l) :
    l.getD (List.indexOf a l) 0 = a := by
  induction l with
  | nil => cases h
  | cons x xs ih =>
    by_cases hx : x = a
    · subst hx
      simp [List.indexOf_cons]
    · have hb : (x == a) = false := by simp [hx]
      have hmem : a ∈ xs := by
        rcases List.mem_cons.mp h with h1 | h1
        · exact absurd h1.symm hx
        · exact h1
      simp only [List.indexOf_cons, hb, cond_false, List.getD_cons_succ]
      exact ih hmem

theorem getD_ne_of_lt_indexOf (a : Nat) (l : List Nat) (j : Nat)
    (hj : j < List.indexOf a l) : l.getD j 0 ≠ a := by
  induction l generalizing j with
  | nil =>
    have h0 : List.indexOf a ([] : List Nat) = 0 := rfl
    rw [h0] at hj
    omega
  | cons x xs ih =>
    by_cases hx : x = a
    · subst hx
      simp [List.indexOf_cons] at hj
    · have hb : (x == a) = false := by simp [hx]
      simp only [List.indexOf_cons, hb, cond_false] at hj
      cases j with
      | zero => simpa using hx
      | succ j =>
        simp only [List.getD_cons_succ]
        exact ih j (by omega)

theorem map_getD_of_lt {α β : Type} (f : α → β) (l : List α) (k : Nat)
    (hk : k < l.length) (d : α) (d2 : β) :
    (l.map f).getD k d2 = f (l.getD k d) := by
  rw [List.getD_eq_getElem?_getD, List.getD_eq_getElem?_getD, List.getElem?_map]
  cases hx : l[k]? with
  | none =>
    have := List.getElem?_eq_none_iff.mp hx
    omega
  | some a => simp [hx]

end FinetuneAdapter

/-- Claim C8: for a non-empty example collection, `get_longest_seq_length`
returns the maximum input_ids length together with an in-range index
attaining it, and when several examples tie for the longest length the
returned index is the first (lowest) one. -/
theorem C8_get_longest_seq_length_correct (data : List FinetuneAdapter.Example)
    (h : data ≠ []) :
    (∀ d ∈ data, d.input_ids.length ≤ (FinetuneAdapter.get_longest_seq_length data).1)
    ∧ (FinetuneAdapter.get_longest_seq_length data).2 < data.length
    ∧ ((data.getD (FinetuneAdapter.get_longest_seq_length data).2 ⟨[], []⟩).input_ids.length
        = (FinetuneAdapter.get_longest_seq_length data).1)
    ∧ (∀ j < (FinetuneAdapter.get_longest_seq_length data).2,
        (data.getD j ⟨[], []⟩).input_ids.length
          ≠ (FinetuneAdapter.get_longest_seq_length data).1) := by
  have hne : data.map (fun d => d.input_ids.length) ≠ [] := by
    simpa [List.map_eq_nil_iff] using h
  cases hmax : (data.map (fun d => d.input_ids.length)).max? with
  | none => exact absurd (List.max?_eq_none_iff.mp hmax) hne
  | some m =>
    have hfst : (FinetuneAdapter.get_longest_seq_length data).1 = m := by
      simp [FinetuneAdapter.get_longest_seq_length, hmax]
    have hsnd : (FinetuneAdapter.get_longest_seq_length data).2
        = List.indexOf m (data.map (fun d => d.input_ids.length)) := by
      simp [FinetuneAdapter.get_longest_seq_length, hmax]
    have hmem : m ∈ data.map (fun d => d.input_ids.length) :=
      List.max?_mem (fun a b => max_choice a b) hmax
    have hub : ∀ b ∈ data.map (fun d => d.input_ids.length), b ≤ m :=
      (List.max?_le_iff (fun _ _ _ => Nat.max_le) hmax).mp (le_refl m)
    have hidx : List.indexOf m (data.map (fun d => d.input_ids.length))
        < (data.map (fun d => d.input_ids.length)).length :=
      List.indexOf_lt_length.mpr hmem
    have hlenmap : (data.map (fun d => d.input_ids.length)).length = data.length :=
      List.length_map _ _
    refine ⟨?_, ?_, ?_, ?_⟩
    · intro d hd
      rw [hfst]
      exact hub _ (List.mem_map_of_mem _ hd)
    · rw [hsnd]
      omega
    · rw [hfst, hsnd]
      have := FinetuneAdapter.getD_indexOf m (data.map (fun d => d.input_ids.length)) hmem
      rwa [FinetuneAdapter.map_getD_of_lt (fun d => d.input_ids.length) data _
        (by omega) ⟨[], []⟩ 0] at this
    · intro j hj
      rw [hfst]
      rw [hsnd] at hj
      have hne2 := FinetuneAdapter.getD_ne_of_lt_indexOf m
        (data.map (fun d => d.input_ids.length)) j hj
      rwa [FinetuneAdapter.map_getD_of_lt (fun d => d.input_ids.length) data j
        (by omega) ⟨[], []⟩ 0] at hne2

/-- Witness for C8 on a three-example collection with a tie for the
longest length between indices 1 and 2: the returned pair is (2, 1). -/
theorem C8_get_longest_seq_length_witness :
    ([⟨[7], [7]⟩, ⟨[1, 2], [1, 2]⟩, ⟨[3, 4], [3, 4]⟩]
        : List FinetuneAdapter.Example) ≠ []
    ∧ ((∀ d ∈ ([⟨[7], [7]⟩, ⟨[1, 2], [1, 2]⟩, ⟨[3, 4], [3, 4]⟩]
          : List FinetuneAdapter.Example),
        d.input_ids.length ≤ (FinetuneAdapter.get_longest_seq_length
          [⟨[7], [7]⟩, ⟨[1, 2], [1, 2]⟩, ⟨[3, 4], [3, 4]⟩]).1)
    ∧ (FinetuneAdapter.get_longest_seq_length
        [⟨[7], [7]⟩, ⟨[1, 2], [1, 2]⟩, ⟨[3, 4], [3, 4]⟩]).2
        < ([⟨[7], [7]⟩, ⟨[1, 2], [1, 2]⟩, ⟨[3, 4], [3, 4]⟩]
            : List FinetuneAdapter.Example).length
    ∧ ((([⟨[7], [7]⟩, ⟨[1, 2], [1, 2]⟩, ⟨[3, 4], [3, 4]⟩]
          : List FinetuneAdapter.Example).getD
          (FinetuneAdapter.get_longest_seq_length
            [⟨[7], [7]⟩, ⟨[1, 2], [1, 2]⟩, ⟨[3, 4], [3, 4]⟩]).2
          ⟨[], []⟩).input_ids.length
        = (FinetuneAdapter.get_longest_seq_length
            [⟨[7], [7]⟩, ⟨[1, 2], [1, 2]⟩, ⟨[3, 4], [3, 4]⟩]).1)
    ∧ (∀ j < (FinetuneAdapter.get_longest_seq_length
          [⟨[7], [7]⟩, ⟨[1, 2], [1, 2]⟩, ⟨[3, 4], [3, 4]⟩]).2,
        (([⟨[7], [7]⟩, ⟨[1, 2], [1, 2]⟩, ⟨[3, 4], [3, 4]⟩]
            : List FinetuneAdapter.Example).getD j ⟨[], []⟩).input_ids.length
          ≠ (FinetuneAdapter.get_longest_seq_length
              [⟨[7], [7]⟩, ⟨[1, 2], [1, 2]⟩, ⟨[3, 4], [3, 4]⟩]).1)) :=
  ⟨by decide, C8_get_longest_seq_length_correct
    [⟨[7], [7]⟩, ⟨[1, 2], [1, 2]⟩, ⟨[3, 4], [3, 4]⟩] (by decide)⟩

namespace FinetuneAdapter

/-- finetune/adapter.py lines 301-304: the index vector drawn by
torch.randint (externalized here as `ix`), with slot 0 overwritten by the
longest-sequence index when one is supplied. -/
def effective_ix (ix : List Nat) (longest_seq_ix : Option Nat) : List Nat :=
  match longest_seq_ix with
  | some j => ix.set 0 j
  | none => ix

/-- finetune/adapter.py line 306: the selected input_ids rows. -/
def batch_input_ids (data : List Example) (ix : List Nat)
    (longest_seq_ix : Option Nat) : List (List Int) :=
  (effective_ix ix longest_seq_ix).map (fun i => (data.getD i ⟨[], []⟩).input_ids)

/-- finetune/adapter.py line 307: the selected label rows. -/
def batch_labels (data : List Example) (ix : List Nat)
    (longest_seq_ix : Option Nat) : List (List Int) :=
  (effective_ix ix longest_seq_ix).map (fun i => (data.getD i ⟨[], []⟩).labels)

/-- finetune/adapter.py line 310: max(len(s) for s in input_ids).
Python's max raises on an empty batch; an empty batch yields 0 here and
the claim assumes at least one example per batch. -/
def batch_max_len (data : List Example) (ix : List Nat)
    (longest_seq_ix : Option Nat) : Nat :=
  ((batch_input_ids data ix longest_seq_ix).map List.length).max?.getD 0

/-- finetune/adapter.py lines 312-315: right padding with pad_id up to
max_len. -/
def pad_right (max_len : Nat) (pad_id : Int) (x : List Int) : List Int :=
  x ++ List.replicate (max_len - x.length) pad_id

/-- finetune/adapter.py lines 320-323.  Python's truthiness test
`if max_seq_length:` is false both for None and for 0, so truncation
happens only under a nonzero configured cap. -/
def truncate_rows (max_seq_length : Option Nat) (rows : List (List Int)) :
    List (List Int) :=
  match max_seq_length with
  | some n => if n ≠ 0 then rows.map (List.take n) else rows
  | none => rows

/-- `get_batch` (finetune/adapter.py lines 294-329): stacks the selected
rows right-padded to the longest selected input length (pad 0 for inputs,
pad -1 for labels), then truncates when a nonzero max_seq_length is set. -/
def get_batch (data : List Example) (ix : List Nat) (max_seq_length : Option Nat)
    (longest_seq_ix : Option Nat) : List (List Int) × List (List Int) :=
  (truncate_rows max_seq_length
      ((batch_input_ids data ix longest_seq_ix).map
        (pad_right (batch_max_len data ix longest_seq_ix) 0)),
   truncate_rows max_seq_length
      ((batch_labels data ix longest_seq_ix).map
        (pad_right (batch_max_len data ix longest_seq_ix) (-1))))

theorem pad_right_length (M : Nat) (p : Int) (x : List Int) (h : x.length ≤ M) :
    (pad_right M p x).length = M := by
  simp only [pad_right, List.length_append, List.length_replicate]
  omega

theorem pad_right_getElem (M : Nat) (p : Int) (s : List Int) (pos : Nat)
    (h1 : s.length ≤ pos) (h2 : pos < (pad_right M p s).length) :
    (pad_right M p s)[pos]? = some p := by
  simp only [pad_right, List.length_append, List.length_replicate] at h2
  rw [pad_right, List.getElem?_append_right h1, List.getElem?_replicate,
    if_pos (by omega)]

theorem effective_ix_length (ix : List Nat) (lsi : Option Nat) :
    (effective_ix ix lsi).length = ix.length := by
  cases lsi <;> simp [effective_ix]

theorem batch_input_len_le (data : List Example) (ix : List Nat)
    (lsi : Option Nat) (hix : ix ≠ []) :
    ∀ s ∈ batch_input_ids data ix lsi, s.length ≤ batch_max_len data ix lsi := by
  intro s hs
  have hne : batch_input_ids data ix lsi ≠ [] := by
    intro hcon
    apply hix
    have hlen := congrArg List.length hcon
    simp only [batch_input_ids, List.length_map, effective_ix_length,
      List.length_nil] at hlen
    exact List.length_eq_zero.mp hlen
  cases hmax : ((batch_input_ids data ix lsi).map List.length).max? with
  | none =>
    have := List.max?_eq_none_iff.mp hmax
    rw [List.map_eq_nil_iff] at this
    exact absurd this hne
  | some m =>
    have hub : ∀ b ∈ (batch_input_ids data ix lsi).map List.length, b ≤ m :=
      (List.max?_le_iff (fun _ _ _ => Nat.max_le) hmax).mp (le_refl m)
    have hml : batch_max_len data ix lsi = m := by
      simp [batch_max_len, hmax]
    rw [hml]
    exact hub _ (List.mem_map_of_mem _ hs)

theorem getD_labels_length (data : List Example)
    (hlab : ∀ d ∈ data, d.labels.length = d.input_ids.length) (i : Nat) :
    (data.getD i ⟨[], []⟩).labels.length = (data.getD i ⟨[], []⟩).input_ids.length := by
  by_cases hi : i < data.length
  · rw [List.getD_eq_getElem data ⟨[], []⟩ hi]
    exact hlab _ (List.getElem_mem hi)
  · rw [List.getD_eq_default data ⟨[], []⟩ (by omega)]

theorem batch_labels_len_le (data : List Example) (ix : List Nat)
    (lsi : Option Nat) (hix : ix ≠ [])
    (hlab : ∀ d ∈ data, d.labels.length = d.input_ids.length) :
    ∀ s ∈ batch_labels data ix lsi, s.length ≤ batch_max_len data ix lsi := by
  intro s hs
  simp only [batch_labels, List.mem_map] at hs
  obtain ⟨i, hi, rfl⟩ := hs
  rw [getD_labels_length data hlab i]
  exact batch_input_len_le data ix lsi hix _
    (by simpa [batch_input_ids] using List.mem_map_of_mem _ hi)

theorem truncate_pad_length (cap : Option Nat) (M : Nat) (p : Int)
    (rows : List (List Int)) (hrows : ∀ s ∈ rows, s.length ≤ M) :
    ∀ r ∈ truncate_rows cap (rows.map (pad_right M p)),
      r.length = (match cap with
        | some n => if n ≠ 0 then min n M else M
        | none => M) := by
  intro r hr
  cases cap with
  | none =>
    simp only [truncate_rows] at hr
    obtain ⟨s, hs, rfl⟩ := List.mem_map.mp hr
    simp [pad_right_length M p s (hrows s hs)]
  | some n =>
    by_cases hn : n = 0
    · subst hn
      simp only [truncate_rows, ne_eq, not_true_eq_false, if_false] at hr
      obtain ⟨s, hs, rfl⟩ := List.mem_map.mp hr
      simp [pad_right_length M p s (hrows s hs)]
    · simp only [truncate_rows, if_pos hn] at hr
      obtain ⟨r0, hr0, rfl⟩ := List.mem_map.mp hr
      obtain ⟨s, hs, rfl⟩ := List.mem_map.mp hr0
      simp [List.length_take, pad_right_length M p s (hrows s hs), hn]

theorem truncate_pad_getElem (cap : Option Nat) (M : Nat) (p : Int)
    (rows : List (List Int)) (k pos : Nat) (hk : k < rows.length)
    (hpos1 : (rows.getD k []).length ≤ pos)
    (hpos2 : pos < ((truncate_rows cap (rows.map (pad_right M p))).getD k []).length) :
    ((truncate_rows cap (rows.map (pad_right M p))).getD k [])[pos]? = some p := by
  cases cap with
  | none =>
    simp only [truncate_rows] at hpos2 ⊢
    rw [map_getD_of_lt (pad_right M p) rows k hk [] []] at hpos2 ⊢
    exact pad_right_getElem M p _ pos hpos1 hpos2
  | some n =>
    by_cases hn : n = 0
    · subst hn
      simp only [truncate_rows, ne_eq, not_true_eq_false, if_false] at hpos2 ⊢
      rw [map_getD_of_lt (pad_right M p) rows k hk [] []] at hpos2 ⊢
      exact pad_right_getElem M p _ pos hpos1 hpos2
    · simp only [truncate_rows, if_pos hn] at hpos2 ⊢
      rw [map_getD_of_lt (List.take n) (rows.map (pad_right M p)) k
        (by simpa using hk) [] [],
        map_getD_of_lt (pad_right M p) rows k hk [] []] at hpos2 ⊢
      rw [List.length_take] at hpos2
      rw [List.getElem?_take, if_pos (by omega)]
      exact pad_right_getElem M p _ pos hpos1 (by omega)

end FinetuneAdapter

/-- Claim C6 (amended): for a non-empty index draw, every input row and
every label row of a produced batch has the same length; positions beyond
a selected example's original length hold 0 in its input row and -1 in its
label row; and when a nonzero max-sequence-length cap is configured no row
exceeds the cap.  (As literally stated the claim fails for a configured
cap of 0, which Python's truthiness test treats as unset.) -/
theorem C6_get_batch_rows (data : List FinetuneAdapter.Example) (ix : List Nat)
    (cap : Option Nat) (lsi : Option Nat)
    (hix : ix ≠ [])
    (hlab : ∀ d ∈ data, d.labels.length = d.input_ids.length) :
    (∃ L,
      (∀ r ∈ (FinetuneAdapter.get_batch data ix cap lsi).1, r.length = L)
      ∧ (∀ r ∈ (FinetuneAdapter.get_batch data ix cap lsi).2, r.length = L)
      ∧ (∀ n, cap = some n → n ≠ 0 → L ≤ n))
    ∧ (∀ k pos, k < (FinetuneAdapter.effective_ix ix lsi).length →
        (data.getD ((FinetuneAdapter.effective_ix ix lsi).getD k 0)
          ⟨[], []⟩).input_ids.length ≤ pos →
        pos < ((FinetuneAdapter.get_batch data ix cap lsi).1.getD k []).length →
        ((FinetuneAdapter.get_batch data ix cap lsi).1.getD k [])[pos]? = some 0)
    ∧ (∀ k pos, k < (FinetuneAdapter.effective_ix ix lsi).length →
        (data.getD ((FinetuneAdapter.effective_ix ix lsi).getD k 0)
          ⟨[], []⟩).labels.length ≤ pos →
        pos < ((FinetuneAdapter.get_batch data ix cap lsi).2.getD k []).length →
        ((FinetuneAdapter.get_batch data ix cap lsi).2.getD k [])[pos]? = some (-1)) := by
  have hin := FinetuneAdapter.batch_input_len_le data ix lsi hix
  have hlabl := FinetuneAdapter.batch_labels_len_le data ix lsi hix hlab
  refine ⟨⟨(match cap with
      | some n => if n ≠ 0 then min n (FinetuneAdapter.batch_max_len data ix lsi)
          else FinetuneAdapter.batch_max_len data ix lsi
      | none => FinetuneAdapter.batch_max_len data ix lsi), ?_, ?_, ?_⟩, ?_, ?_⟩
  · intro r hr
    exact FinetuneAdapter.truncate_pad_length cap _ 0 _ hin r hr
  · intro r hr
    exact FinetuneAdapter.truncate_pad_length cap _ (-1) _ hlabl r hr
  · intro n hc hn
    subst hc
    show (if n ≠ 0 then min n (FinetuneAdapter.batch_max_len data ix lsi)
        else FinetuneAdapter.batch_max_len data ix lsi) ≤ n
    rw [if_pos hn]
    exact min_le_left n _
  · intro k pos hk h1 h2
    have hk' : k < (FinetuneAdapter.batch_input_ids data ix lsi).length := by
      simpa [FinetuneAdapter.batch_input_ids] using hk
    have hrow : (FinetuneAdapter.batch_input_ids data ix lsi).getD k []
        = (data.getD ((FinetuneAdapter.effective_ix ix lsi).getD k 0)
            ⟨[], []⟩).input_ids :=
      FinetuneAdapter.map_getD_of_lt
        (fun i => (data.getD i ⟨[], []⟩).input_ids)
        (FinetuneAdapter.effective_ix ix lsi) k hk 0 []
    refine FinetuneAdapter.truncate_pad_getElem cap _ 0
      (FinetuneAdapter.batch_input_ids data ix lsi) k pos hk' ?_ h2
    rw [hrow]
    exact h1
  · intro k pos hk h1 h2
    have hk' : k < (FinetuneAdapter.batch_labels data ix lsi).length := by
      simpa [FinetuneAdapter.batch_labels] using hk
    have hrow : (FinetuneAdapter.batch_labels data ix lsi).getD k []
        = (data.getD ((FinetuneAdapter.effective_ix ix lsi).getD k 0)
            ⟨[], []⟩).labels :=
      FinetuneAdapter.map_getD_of_lt
        (fun i => (data.getD i ⟨[], []⟩).labels)
        (FinetuneAdapter.effective_ix ix lsi) k hk 0 []
    refine FinetuneAdapter.truncate_pad_getElem cap _ (-1)
      (FinetuneAdapter.batch_labels data ix lsi) k pos hk' ?_ h2
    rw [hrow]
    exact h1

/-- Counterexample to claim C6 as literally stated: when the
max-sequence-length cap is configured as 0, Python's truthiness test
`if max_seq_length:` is false, no truncation happens, and the produced
input row keeps length 1, exceeding the configured cap 0. -/
theorem C6_counterexample_cap_zero :
    (FinetuneAdapter.get_batch [⟨[5], [5]⟩] [0] (some 0) none).1 = [[5]]
    ∧ ¬ (((FinetuneAdapter.get_batch [⟨[5], [5]⟩] [0] (some 0) none).1.getD 0
        []).length ≤ 0) := by
  decide

/-- Witness for C6 on a one-example batch with a cap of 5. -/
theorem C6_get_batch_rows_witness :
    (([0] : List Nat) ≠ []
    ∧ (∀ d ∈ ([⟨[1, 2], [1, 2]⟩] : List FinetuneAdapter.Example),
        d.labels.length = d.input_ids.length))
    ∧ ((∃ L,
      (∀ r ∈ (FinetuneAdapter.get_batch [⟨[1, 2], [1, 2]⟩] [0] (some 5) none).1,
        r.length = L)
      ∧ (∀ r ∈ (FinetuneAdapter.get_batch [⟨[1, 2], [1, 2]⟩] [0] (some 5) none).2,
        r.length = L)
      ∧ (∀ n, (some 5 : Option Nat) = some n → n ≠ 0 → L ≤ n))
    ∧ (∀ k pos, k < (FinetuneAdapter.effective_ix [0] none).length →
        (([⟨[1, 2], [1, 2]⟩] : List FinetuneAdapter.Example).getD
          ((FinetuneAdapter.effective_ix [0] none).getD k 0)
          ⟨[], []⟩).input_ids.length ≤ pos →
        pos < ((FinetuneAdapter.get_batch [⟨[1, 2], [1, 2]⟩] [0] (some 5)
          none).1.getD k []).length →
        ((FinetuneAdapter.get_batch [⟨[1, 2], [1, 2]⟩] [0] (some 5)
          none).1.getD k [])[pos]? = some 0)
    ∧ (∀ k pos, k < (FinetuneAdapter.effective_ix [0] none).length →
        (([⟨[1, 2], [1, 2]⟩] : List FinetuneAdapter.Example).getD
          ((FinetuneAdapter.effective_ix [0] none).getD k 0)
          ⟨[], []⟩).labels.length ≤ pos →
        pos < ((FinetuneAdapter.get_batch [⟨[1, 2], [1, 2]⟩] [0] (some 5)
          none).2.getD k []).length →
        ((FinetuneAdapter.get_batch [⟨[1, 2], [1, 2]⟩] [0] (some 5)
          none).2.getD k [])[pos]? = some (-1))) :=
  ⟨⟨by decide, by decide⟩,
    C6_get_batch_rows [⟨[1, 2], [1, 2]⟩] [0] (some 5) none (by decide) (by decide)⟩

namespace MergeLora

/-- File contents are opaque byte lists. -/
abbrev Content := List Nat

/-- A checkpoint directory: an association list from file name to file
content. -/
abbrev Dir := List (String × Content)

/-- Content of a file of the directory, if present. -/
def lookupFile : Dir → String → Option Content
  | [], _ => none
  | (m, c) :: rest, n => if m = n then some c else lookupFile rest n

/-- `Path.is_file` within the directory. -/
def isFile (d : Dir) (n : String) : Bool :=
  (lookupFile d n).isSome

/-- Removal of a file name from the directory. -/
def removeFile : Dir → String → Dir
  | [], _ => []
  | (m, c) :: rest, n =>
    if m = n then removeFile rest n else (m, c) :: removeFile rest n

/-- Whole-file write (`torch.save` to a path): installs the content under
the name, replacing any previous entry. -/
def writeFile (d : Dir) (n : String) (c : Content) : Dir :=
  (n, c) :: removeFile d n

/-- `shutil.move` within one directory: renames src to dst, overwriting
dst.  (A missing src would raise; on the paths merge_lora moves, src is
always present.) -/
def moveFile (d : Dir) (src dst : String) : Dir :=
  match lookupFile d src with
  | none => d
  | some c => writeFile (removeFile d src) dst c

/-- Modelled from the spec: a checkpoint directory is valid iff both the
weights file lit_model.pth and the configuration file lit_config.json are
present.  (`check_valid_checkpoint_dir` is defined in lit_gpt/utils.py,
which is not among the included sources; merge_lora calls it at
scripts/merge_lora.py lines 41-43.) -/
def check_valid_checkpoint_dir (d : Dir) : Bool :=
  isFile d "lit_model.pth" && isFile d "lit_config.json"

/-- The errors merge_lora can raise before mutating any file. -/
inductive MergeError
  | invalidCheckpointDir
  | configurationMissing
  | fileNotFound
deriving DecidableEq

/-- Observable outcome of one merge_lora invocation: a raised error, the
informational already-merged no-op return (carrying the directory,
unchanged), or a successful merge carrying the succession of directory
states (initial, after the temporary write, after each rename). -/
inductive MergeResult
  | error (e : MergeError)
  | alreadyMerged (d : Dir)
  | merged (trace : List Dir)
deriving DecidableEq

/-- scripts/merge_lora.py lines 67-73: write the merged weights to the
temporary file lit_model.pth.merged, rename the original weights file to
the lit_model.pth.lora backup, then rename the temporary file into the
canonical name; the returned list records the succession of directory
states. -/
def merge_write_and_rename (d : Dir) (mc : Content) : List Dir :=
  let s1 := writeFile d "lit_model.pth.merged" mc
  let s2 := moveFile s1 "lit_model.pth" "lit_model.pth.lora"
  let s3 := moveFile s2 "lit_model.pth.merged" "lit_model.pth"
  [d, s1, s2, s3]

/-- `merge_lora` (scripts/merge_lora.py lines 22-76), abstracted over the
numeric merge: `computeMerged` stands for lines 51-67 (model construction
from lit_config.json plus the lora_ hyperparameters, overlay of the LoRA
checkpoint on the base weights, in-place low-rank merge and state-dict
filtering, implemented in lit_gpt/lora.py outside the included sources) as
a function of the pretrained weights content and the LoRA checkpoint
content.  `meta_pretrained` is the base checkpoint directory that the
`checkpoint_dir` key of hyperparameters.yaml resolves to, used when
`pretrained_opt` is not given (line 48). -/
def merge_lora (computeMerged : Content → Content → Content)
    (checkpoint_dir : Dir) (pretrained_opt : Option Dir)
    (meta_pretrained : Dir) : MergeResult :=
  if !check_valid_checkpoint_dir checkpoint_dir then
    .error .invalidCheckpointDir
  else if pretrained_opt.any (fun p => !check_valid_checkpoint_dir p) then
    .error .invalidCheckpointDir
  else if isFile checkpoint_dir "lit_model.pth.lora" then
    .alreadyMerged checkpoint_dir
  else if !isFile checkpoint_dir "hyperparameters.yaml" then
    .error .configurationMissing
  else
    match lookupFile (pretrained_opt.getD meta_pretrained) "lit_model.pth" with
    | none => .error .fileNotFound
    | some pc =>
      .merged (merge_write_and_rename checkpoint_dir
        (computeMerged pc ((lookupFile checkpoint_dir "lit_model.pth").getD [])))

/-- The directory holds at least one complete weights file: the canonical
one, the temporary merged one, or the .lora backup. -/
def hasWeightsFile (d : Dir) : Bool :=
  isFile d "lit_model.pth" || isFile d "lit_model.pth.merged"
    || isFile d "lit_model.pth.lora"

theorem lookupFile_writeFile_self (d : Dir) (n : String) (c : Content) :
    lookupFile (writeFile d n c) n = some c := by
  simp [writeFile, lookupFile]

theorem lookupFile_removeFile (d : Dir) (n m : String) (h : m ≠ n) :
    lookupFile (removeFile d n) m = lookupFile d m := by
  induction d with
  | nil => rfl
  | cons p rest ih =>
    obtain ⟨pn, pc⟩ := p
    by_cases h1 : pn = n
    · subst h1
      have h2 : pn ≠ m := fun hc => h (hc ▸ rfl)
      simp [removeFile, lookupFile, h2, ih]
    · by_cases h2 : pn = m
      · subst h2
        simp [removeFile, lookupFile, h1]
      · simp [removeFile, lookupFile, h1, h2, ih]

theorem lookupFile_writeFile_other (d : Dir) (n m : String) (c : Content)
    (h : m ≠ n) :
    lookupFile (writeFile d n c) m = lookupFile d m := by
  have h2 : n ≠ m := fun hc => h hc.symm
  simp [writeFile, lookupFile, h2, lookupFile_removeFile d n m h]

end MergeLora

namespace MergeLora

theorem merge_lora_merged_inv (cf : Content → Content → Content)
    (d : Dir) (popt : Option Dir) (mp : Dir) (tr : List Dir)
    (h : merge_lora cf d popt mp = .merged tr) :
    check_valid_checkpoint_dir d = true
    ∧ isFile d "lit_model.pth.lora" = false
    ∧ ∃ mc, tr = merge_write_and_rename d mc := by
  cases h1 : check_valid_checkpoint_dir d with
  | false => rw [merge_lora, h1] at h; simp at h
  | true =>
    cases h2 : popt.any (fun p => !check_valid_checkpoint_dir p) with
    | true => rw [merge_lora, h1, h2] at h; simp at h
    | false =>
      cases h3 : isFile d "lit_model.pth.lora" with
      | true => rw [merge_lora, h1, h2, h3] at h; simp at h
      | false =>
        cases h4 : isFile d "hyperparameters.yaml" with
        | false => rw [merge_lora, h1, h2, h3, h4] at h; simp at h
        | true =>
          cases h5 : lookupFile (popt.getD mp) "lit_model.pth" with
          | none => rw [merge_lora, h1, h2, h3, h4, h5] at h; simp at h
          | some pc =>
            rw [merge_lora, h1, h2, h3, h4, h5] at h
            simp only [Bool.not_true, Bool.false_eq_true, if_false,
              Bool.true_eq_false, if_true, MergeResult.merged.injEq] at h
            exact ⟨rfl, rfl, pc |> fun _ =>
              ⟨cf pc ((lookupFile d "lit_model.pth").getD []), h.symm⟩⟩

end MergeLora

namespace MergeLora

theorem step_facts (d : Dir) (mc : Content) (w : Content)
    (hw : lookupFile d "lit_model.pth" = some w) :
    lookupFile (writeFile d "lit_model.pth.merged" mc) "lit_model.pth" = some w
    ∧ moveFile (writeFile d "lit_model.pth.merged" mc) "lit_model.pth"
        "lit_model.pth.lora"
      = writeFile (removeFile (writeFile d "lit_model.pth.merged" mc)
          "lit_model.pth") "lit_model.pth.lora" w := by
  have hA : lookupFile (writeFile d "lit_model.pth.merged" mc) "lit_model.pth"
      = some w := by
    rw [lookupFile_writeFile_other d _ _ mc (by decide)]
    exact hw
  exact ⟨hA, by rw [moveFile, hA]⟩

end MergeLora

/-- Claim C2: every successful merge_lora run past the sentinel check
performs, in order, the temporary-file write of the merged weights, the
rename of the original weights file to the .lora backup, and the rename of
the temporary file to the canonical weights name; and every directory
state along this sequence still contains a complete weights file (the
canonical one, the temporary merged one, or the backup). -/
theorem C2_merge_backup_then_replace
    (computeMerged : MergeLora.Content → MergeLora.Content → MergeLora.Content)
    (d : MergeLora.Dir) (popt : Option MergeLora.Dir) (mp : MergeLora.Dir)
    (tr : List MergeLora.Dir)
    (h : MergeLora.merge_lora computeMerged d popt mp = .merged tr) :
    ∃ mc s1 s2 s3,
      tr = [d, s1, s2, s3]
      ∧ s1 = MergeLora.writeFile d "lit_model.pth.merged" mc
      ∧ s2 = MergeLora.moveFile s1 "lit_model.pth" "lit_model.pth.lora"
      ∧ s3 = MergeLora.moveFile s2 "lit_model.pth.merged" "lit_model.pth"
      ∧ ∀ s ∈ tr, MergeLora.hasWeightsFile s = true := by
  obtain ⟨h1, -, mc, htr⟩ := MergeLora.merge_lora_merged_inv computeMerged d popt mp tr h
  obtain ⟨w, hw⟩ : ∃ w, MergeLora.lookupFile d "lit_model.pth" = some w := by
    have := h1
    simp only [MergeLora.check_valid_checkpoint_dir, MergeLora.isFile,
      Bool.and_eq_true, Option.isSome_iff_exists] at this
    exact this.1
  obtain ⟨hA, hC⟩ := MergeLora.step_facts d mc w hw
  have hB : MergeLora.lookupFile (MergeLora.writeFile d "lit_model.pth.merged" mc)
      "lit_model.pth.merged" = some mc := MergeLora.lookupFile_writeFile_self _ _ _
  have hD : MergeLora.lookupFile
      (MergeLora.moveFile (MergeLora.writeFile d "lit_model.pth.merged" mc)
        "lit_model.pth" "lit_model.pth.lora") "lit_model.pth.merged" = some mc := by
    rw [hC, MergeLora.lookupFile_writeFile_other _ _ _ _ (by decide),
      MergeLora.lookupFile_removeFile _ _ _ (by decide)]
    exact hB
  have hE : MergeLora.moveFile
      (MergeLora.moveFile (MergeLora.writeFile d "lit_model.pth.merged" mc)
        "lit_model.pth" "lit_model.pth.lora") "lit_model.pth.merged" "lit_model.pth"
      = MergeLora.writeFile
          (MergeLora.removeFile
            (MergeLora.moveFile (MergeLora.writeFile d "lit_model.pth.merged" mc)
              "lit_model.pth" "lit_model.pth.lora") "lit_model.pth.merged")
          "lit_model.pth" mc := by
    rw [MergeLora.moveFile, hD]
  have hF : MergeLora.lookupFile
      (MergeLora.moveFile
        (MergeLora.moveFile (MergeLora.writeFile d "lit_model.pth.merged" mc)
          "lit_model.pth" "lit_model.pth.lora") "lit_model.pth.merged"
        "lit_model.pth") "lit_model.pth" = some mc := by
    rw [hE]
    exact MergeLora.lookupFile_writeFile_self _ _ _
  subst htr
  refine ⟨mc, MergeLora.writeFile d "lit_model.pth.merged" mc,
    MergeLora.moveFile (MergeLora.writeFile d "lit_model.pth.merged" mc)
      "lit_model.pth" "lit_model.pth.lora",
    MergeLora.moveFile
      (MergeLora.moveFile (MergeLora.writeFile d "lit_model.pth.merged" mc)
        "lit_model.pth" "lit_model.pth.lora") "lit_model.pth.merged" "lit_model.pth",
    rfl, rfl, rfl, rfl, ?_⟩
  intro s hs
  simp only [MergeLora.merge_write_and_rename, List.mem_cons,
    List.not_mem_nil, or_false] at hs
  rcases hs with rfl | rfl | rfl | rfl
  · simp [MergeLora.hasWeightsFile, MergeLora.isFile, hw]
  · simp [MergeLora.hasWeightsFile, MergeLora.isFile, hA]
  · simp [MergeLora.hasWeightsFile, MergeLora.isFile, hD]
  · simp [MergeLora.hasWeightsFile, MergeLora.isFile, hF]

/-- Claim C1: once a merge has succeeded, the resulting directory carries
the lit_model.pth.lora sentinel, and any subsequent merge_lora invocation
on it (with any numeric-merge function and any well-formed optional
pretrained-directory argument) detects the sentinel, reports the
already-merged condition and returns the directory unchanged — in
particular the canonical weights file is byte-identical to its state after
the first run. -/
theorem C1_merge_lora_idempotent
    (computeMerged computeMerged2 : MergeLora.Content → MergeLora.Content → MergeLora.Content)
    (d mp mp2 : MergeLora.Dir) (popt popt2 : Option MergeLora.Dir)
    (tr : List MergeLora.Dir) (d3 : MergeLora.Dir)
    (h : MergeLora.merge_lora computeMerged d popt mp = .merged tr)
    (hlast : tr.getLast? = some d3)
    (hp2 : ∀ p, popt2 = some p → MergeLora.check_valid_checkpoint_dir p = true) :
    MergeLora.isFile d3 "lit_model.pth.lora" = true
    ∧ MergeLora.merge_lora computeMerged2 d3 popt2 mp2 = .alreadyMerged d3 := by
  obtain ⟨h1, -, mc, htr⟩ := MergeLora.merge_lora_merged_inv computeMerged d popt mp tr h
  obtain ⟨w, hw⟩ : ∃ w, MergeLora.lookupFile d "lit_model.pth" = some w := by
    have := h1
    simp only [MergeLora.check_valid_checkpoint_dir, MergeLora.isFile,
      Bool.and_eq_true, Option.isSome_iff_exists] at this
    exact this.1
  obtain ⟨cfg, hcfg⟩ : ∃ cfg, MergeLora.lookupFile d "lit_config.json" = some cfg := by
    have := h1
    simp only [MergeLora.check_valid_checkpoint_dir, MergeLora.isFile,
      Bool.and_eq_true, Option.isSome_iff_exists] at this
    exact this.2
  obtain ⟨hA, hC⟩ := MergeLora.step_facts d mc w hw
  have hB : MergeLora.lookupFile (MergeLora.writeFile d "lit_model.pth.merged" mc)
      "lit_model.pth.merged" = some mc := MergeLora.lookupFile_writeFile_self _ _ _
  have hD : MergeLora.lookupFile
      (MergeLora.moveFile (MergeLora.writeFile d "lit_model.pth.merged" mc)
        "lit_model.pth" "lit_model.pth.lora") "lit_model.pth.merged" = some mc := by
    rw [hC, MergeLora.lookupFile_writeFile_other _ _ _ _ (by decide),
      MergeLora.lookupFile_removeFile _ _ _ (by decide)]
    exact hB
  have hE : MergeLora.moveFile
      (MergeLora.moveFile (MergeLora.writeFile d "lit_model.pth.merged" mc)
        "lit_model.pth" "lit_model.pth.lora") "lit_model.pth.merged" "lit_model.pth"
      = MergeLora.writeFile
          (MergeLora.removeFile
            (MergeLora.moveFile (MergeLora.writeFile d "lit_model.pth.merged" mc)
              "lit_model.pth" "lit_model.pth.lora") "lit_model.pth.merged")
          "lit_model.pth" mc := by
    rw [MergeLora.moveFile, hD]
  have hd3 : d3 = MergeLora.moveFile
      (MergeLora.moveFile (MergeLora.writeFile d "lit_model.pth.merged" mc)
        "lit_model.pth" "lit_model.pth.lora") "lit_model.pth.merged"
      "lit_model.pth" := by
    subst htr
    simp only [MergeLora.merge_write_and_rename, List.getLast?_cons_cons,
      List.getLast?_singleton, Option.some.injEq] at hlast
    exact hlast.symm
  -- the canonical weights file of the merged directory
  have hF : MergeLora.lookupFile d3 "lit_model.pth" = some mc := by
    rw [hd3, hE]
    exact MergeLora.lookupFile_writeFile_self _ _ _
  -- the configuration file survives every step
  have hcfg1 : MergeLora.lookupFile (MergeLora.writeFile d "lit_model.pth.merged" mc)
      "lit_config.json" = some cfg := by
    rw [MergeLora.lookupFile_writeFile_other _ _ _ _ (by decide)]
    exact hcfg
  have hcfg2 : MergeLora.lookupFile
      (MergeLora.moveFile (MergeLora.writeFile d "lit_model.pth.merged" mc)
        "lit_model.pth" "lit_model.pth.lora") "lit_config.json" = some cfg := by
    rw [hC, MergeLora.lookupFile_writeFile_other _ _ _ _ (by decide),
      MergeLora.lookupFile_removeFile _ _ _ (by decide)]
    exact hcfg1
  have hcfg3 : MergeLora.lookupFile d3 "lit_config.json" = some cfg := by
    rw [hd3, hE, MergeLora.lookupFile_writeFile_other _ _ _ _ (by decide),
      MergeLora.lookupFile_removeFile _ _ _ (by decide)]
    exact hcfg2
  -- the sentinel written by the first rename survives the second
  have hlora2 : MergeLora.lookupFile
      (MergeLora.moveFile (MergeLora.writeFile d "lit_model.pth.merged" mc)
        "lit_model.pth" "lit_model.pth.lora") "lit_model.pth.lora" = some w := by
    rw [hC]
    exact MergeLora.lookupFile_writeFile_self _ _ _
  have hlora3 : MergeLora.lookupFile d3 "lit_model.pth.lora" = some w := by
    rw [hd3, hE, MergeLora.lookupFile_writeFile_other _ _ _ _ (by decide),
      MergeLora.lookupFile_removeFile _ _ _ (by decide)]
    exact hlora2
  have hv3 : MergeLora.check_valid_checkpoint_dir d3 = true := by
    simp [MergeLora.check_valid_checkpoint_dir, MergeLora.isFile, hF, hcfg3]
  have hs3 : MergeLora.isFile d3 "lit_model.pth.lora" = true := by
    simp [MergeLora.isFile, hlora3]
  have hpp : popt2.any (fun p => !MergeLora.check_valid_checkpoint_dir p) = false := by
    cases popt2 with
    | none => rfl
    | some p => simp [Option.any, hp2 p rfl]
  refine ⟨hs3, ?_⟩
  rw [MergeLora.merge_lora, hv3, hpp, hs3]
  simp

/-- Witness for C2 on a concrete three-file checkpoint directory, with
concatenation standing in for the numeric merge. -/
theorem C2_merge_backup_then_replace_witness :
    MergeLora.merge_lora (fun a b => a ++ b)
        [("lit_model.pth", [1, 2]), ("lit_config.json", [0]),
         ("hyperparameters.yaml", [3])]
        none [("lit_model.pth", [9])]
      = .merged
        [[("lit_model.pth", [1, 2]), ("lit_config.json", [0]),
          ("hyperparameters.yaml", [3])],
         [("lit_model.pth.merged", [9, 1, 2]), ("lit_model.pth", [1, 2]),
          ("lit_config.json", [0]), ("hyperparameters.yaml", [3])],
         [("lit_model.pth.lora", [1, 2]), ("lit_model.pth.merged", [9, 1, 2]),
          ("lit_config.json", [0]), ("hyperparameters.yaml", [3])],
         [("lit_model.pth", [9, 1, 2]), ("lit_model.pth.lora", [1, 2]),
          ("lit_config.json", [0]), ("hyperparameters.yaml", [3])]]
    ∧ (∃ mc s1 s2 s3,
      ([[("lit_model.pth", [1, 2]), ("lit_config.json", [0]),
          ("hyperparameters.yaml", [3])],
        [("lit_model.pth.merged", [9, 1, 2]), ("lit_model.pth", [1, 2]),
          ("lit_config.json", [0]), ("hyperparameters.yaml", [3])],
        [("lit_model.pth.lora", [1, 2]), ("lit_model.pth.merged", [9, 1, 2]),
          ("lit_config.json", [0]), ("hyperparameters.yaml", [3])],
        [("lit_model.pth", [9, 1, 2]), ("lit_model.pth.lora", [1, 2]),
          ("lit_config.json", [0]), ("hyperparameters.yaml", [3])]]
        : List MergeLora.Dir)
        = [[("lit_model.pth", [1, 2]), ("lit_config.json", [0]),
            ("hyperparameters.yaml", [3])], s1, s2, s3]
      ∧ s1 = MergeLora.writeFile
          [("lit_model.pth", [1, 2]), ("lit_config.json", [0]),
           ("hyperparameters.yaml", [3])] "lit_model.pth.merged" mc
      ∧ s2 = MergeLora.moveFile s1 "lit_model.pth" "lit_model.pth.lora"
      ∧ s3 = MergeLora.moveFile s2 "lit_model.pth.merged" "lit_model.pth"
      ∧ ∀ s ∈ ([[("lit_model.pth", [1, 2]), ("lit_config.json", [0]),
            ("hyperparameters.yaml", [3])],
          [("lit_model.pth.merged", [9, 1, 2]), ("lit_model.pth", [1, 2]),
            ("lit_config.json", [0]), ("hyperparameters.yaml", [3])],
          [("lit_model.pth.lora", [1, 2]), ("lit_model.pth.merged", [9, 1, 2]),
            ("lit_config.json", [0]), ("hyperparameters.yaml", [3])],
          [("lit_model.pth", [9, 1, 2]), ("lit_model.pth.lora", [1, 2]),
            ("lit_config.json", [0]), ("hyperparameters.yaml", [3])]]
          : List MergeLora.Dir),
          MergeLora.hasWeightsFile s = true) :=
  ⟨by decide,
   C2_merge_backup_then_replace (fun a b => a ++ b)
     [("lit_model.pth", [1, 2]), ("lit_config.json", [0]),
      ("hyperparameters.yaml", [3])]
     none [("lit_model.pth", [9])]
     [[("lit_model.pth", [1, 2]), ("lit_config.json", [0]),
        ("hyperparameters.yaml", [3])],
      [("lit_model.pth.merged", [9, 1, 2]), ("lit_model.pth", [1, 2]),
        ("lit_config.json", [0]), ("hyperparameters.yaml", [3])],
      [("lit_model.pth.lora", [1, 2]), ("lit_model.pth.merged", [9, 1, 2]),
        ("lit_config.json", [0]), ("hyperparameters.yaml", [3])],
      [("lit_model.pth", [9, 1, 2]), ("lit_model.pth.lora", [1, 2]),
        ("lit_config.json", [0]), ("hyperparameters.yaml", [3])]]
     (by decide)⟩

/-- Witness for C1: a concrete first merge followed by a second invocation
(with a different merge function and pretrained argument), which detects
the sentinel and returns the directory unchanged. -/
theorem C1_merge_lora_idempotent_witness :
    (MergeLora.merge_lora (fun a b => a ++ b)
        [("lit_model.pth", [1, 2]), ("lit_config.json", [0]),
         ("hyperparameters.yaml", [3])]
        none [("lit_model.pth", [9])]
      = .merged
        [[("lit_model.pth", [1, 2]), ("lit_config.json", [0]),
          ("hyperparameters.yaml", [3])],
         [("lit_model.pth.merged", [9, 1, 2]), ("lit_model.pth", [1, 2]),
          ("lit_config.json", [0]), ("hyperparameters.yaml", [3])],
         [("lit_model.pth.lora", [1, 2]), ("lit_model.pth.merged", [9, 1, 2]),
          ("lit_config.json", [0]), ("hyperparameters.yaml", [3])],
         [("lit_model.pth", [9, 1, 2]), ("lit_model.pth.lora", [1, 2]),
          ("lit_config.json", [0]), ("hyperparameters.yaml", [3])]]
    ∧ ([[("lit_model.pth", [1, 2]), ("lit_config.json", [0]),
          ("hyperparameters.yaml", [3])],
        [("lit_model.pth.merged", [9, 1, 2]), ("lit_model.pth", [1, 2]),
          ("lit_config.json", [0]), ("hyperparameters.yaml", [3])],
        [("lit_model.pth.lora", [1, 2]), ("lit_model.pth.merged", [9, 1, 2]),
          ("lit_config.json", [0]), ("hyperparameters.yaml", [3])],
        [("lit_model.pth", [9, 1, 2]), ("lit_model.pth.lora", [1, 2]),
          ("lit_config.json", [0]), ("hyperparameters.yaml", [3])]]
        : List MergeLora.Dir).getLast?
      = some
        [("lit_model.pth", [9, 1, 2]), ("lit_model.pth.lora", [1, 2]),
         ("lit_config.json", [0]), ("hyperparameters.yaml", [3])]
    ∧ (∀ p, (none : Option MergeLora.Dir) = some p →
        MergeLora.check_valid_checkpoint_dir p = true))
    ∧ (MergeLora.isFile
        [("lit_model.pth", [9, 1, 2]), ("lit_model.pth.lora", [1, 2]),
         ("lit_config.json", [0]), ("hyperparameters.yaml", [3])]
        "lit_model.pth.lora" = true
    ∧ MergeLora.merge_lora (fun _ b => b)
        [("lit_model.pth", [9, 1, 2]), ("lit_model.pth.lora", [1, 2]),
         ("lit_config.json", [0]), ("hyperparameters.yaml", [3])]
        none []
      = .alreadyMerged
        [("lit_model.pth", [9, 1, 2]), ("lit_model.pth.lora", [1, 2]),
         ("lit_config.json", [0]), ("hyperparameters.yaml", [3])]) :=
  ⟨⟨by decide, by decide, fun p hp => nomatch hp⟩,
   C1_merge_lora_idempotent (fun a b => a ++ b) (fun _ b => b)
     [("lit_model.pth", [1, 2]), ("lit_config.json", [0]),
      ("hyperparameters.yaml", [3])]
     [("lit_model.pth", [9])] [] none none
     [[("lit_model.pth", [1, 2]), ("lit_config.json", [0]),
        ("hyperparameters.yaml", [3])],
      [("lit_model.pth.merged", [9, 1, 2]), ("lit_model.pth", [1, 2]),
        ("lit_config.json", [0]), ("hyperparameters.yaml", [3])],
      [("lit_model.pth.lora", [1, 2]), ("lit_model.pth.merged", [9, 1, 2]),
        ("lit_config.json", [0]), ("hyperparameters.yaml", [3])],
      [("lit_model.pth", [9, 1, 2]), ("lit_model.pth.lora", [1, 2]),
        ("lit_config.json", [0]), ("hyperparameters.yaml", [3])]]
     [("lit_model.pth", [9, 1, 2]), ("lit_model.pth.lora", [1, 2]),
      ("lit_config.json", [0]), ("hyperparameters.yaml", [3])]
     (by decide) (by decide) (fun p hp => nomatch hp)⟩

namespace GenerateAdapter

/-- The fixed response-section marker of the instruction template
(generate_adapter.py line 94). -/
def responseMarker : List Char := "### Response:".toList

/-- The text before the first occurrence of `sep` in `s`, paired with the
text after that occurrence, when `sep` occurs in `s` at all. -/
def splitFirst (sep : List Char) : List Char → Option (List Char × List Char)
  | [] => none
  | c :: rest =>
    if sep.isPrefixOf (c :: rest) then some ([], (c :: rest).drop sep.length)
    else
      match splitFirst sep rest with
      | some (a, b) => some (c :: a, b)
      | none => none

theorem splitFirst_sound (sep s a b : List Char)
    (h : splitFirst sep s = some (a, b)) : s = a ++ sep ++ b := by
  induction s generalizing a b with
  | nil => cases h
  | cons c rest ih =>
    rw [splitFirst] at h
    by_cases hp : sep.isPrefixOf (c :: rest)
    · rw [if_pos hp] at h
      obtain ⟨t, ht⟩ := List.isPrefixOf_iff_prefix.mp hp
      simp only [Option.some.injEq, Prod.mk.injEq] at h
      obtain ⟨ha, hb⟩ := h
      subst ha
      subst hb
      rw [List.nil_append, ← ht, List.drop_left]
    · rw [if_neg hp] at h
      cases hsp : splitFirst sep rest with
      | none => rw [hsp] at h; cases h
      | some ab =>
        obtain ⟨a2, b2⟩ := ab
        rw [hsp] at h
        simp only [Option.some.injEq, Prod.mk.injEq] at h
        obtain ⟨ha, hb⟩ := h
        subst ha
        subst hb
        rw [List.cons_append, List.cons_append, ← ih a2 b2 hsp]

theorem splitFirst_none_iff (sep : List Char) (hsep : sep ≠ []) (s : List Char) :
    splitFirst sep s = none ↔ ¬ sep <:+: s := by
  induction s with
  | nil => simp [splitFirst, List.infix_nil, hsep]
  | cons c rest ih =>
    rw [splitFirst]
    by_cases hp : sep.isPrefixOf (c :: rest)
    · rw [if_pos hp]
      have hpre := List.isPrefixOf_iff_prefix.mp hp
      simp [List.infix_cons_iff, hpre]
    · rw [if_neg hp]
      have hnp : ¬ sep <+: (c :: rest) :=
        fun hc => hp (List.isPrefixOf_iff_prefix.mpr hc)
      cases hsp : splitFirst sep rest with
      | none =>
        simp [List.infix_cons_iff, hnp, ih.mp hsp]
      | some ab =>
        have hin : sep <:+: rest := by
          by_contra hcon
          rw [ih.mpr hcon] at hsp
          cases hsp
        simp [List.infix_cons_iff, hin]

theorem splitFirst_snd_length (sep s a b : List Char) (hsep : sep ≠ [])
    (h : splitFirst sep s = some (a, b)) : b.length < s.length := by
  have hs := splitFirst_sound sep s a b h
  have hl := congrArg List.length hs
  simp only [List.length_append] at hl
  have hpos : 0 < sep.length := List.length_pos.mpr hsep
  omega

theorem splitFirst_of_decomp (sep : List Char) (hsep : sep ≠ [])
    (pre post : List Char)
    (hearly : ∀ i < pre.length, ¬ sep <+: (pre ++ sep ++ post).drop i) :
    splitFirst sep (pre ++ sep ++ post) = some (pre, post) := by
  induction pre with
  | nil =>
    simp only [List.nil_append]
    cases hs : sep with
    | nil => exact absurd hs hsep
    | cons c cs =>
      subst hs
      show splitFirst (c :: cs) (c :: (cs ++ post)) = some ([], post)
      have hp : (c :: cs).isPrefixOf (c :: (cs ++ post)) = true :=
        List.isPrefixOf_iff_prefix.mpr ⟨post, rfl⟩
      rw [splitFirst, if_pos hp]
      exact congrArg some (congrArg _ (List.drop_left (c :: cs) post))
  | cons p pre' ih =>
    have h0 : ¬ sep <+: (p :: (pre' ++ sep ++ post)) := by
      have h1 := hearly 0 (by simp)
      simpa using h1
    have hih := ih (fun i hi => by
      have h2 := hearly (i + 1) (by simpa using Nat.succ_lt_succ hi)
      simpa using h2)
    show splitFirst sep (p :: (pre' ++ sep ++ post)) = some (p :: pre', post)
    rw [splitFirst, if_neg (fun hc => h0 (List.isPrefixOf_iff_prefix.mp hc)), hih]

/-- Python's `str.split(sep)` for the fixed response marker: the fields
between consecutive occurrences of the marker. -/
def splitOnMarker (s : List Char) : List (List Char) :=
  match h : splitFirst responseMarker s with
  | none => [s]
  | some (a, b) => a :: splitOnMarker b
termination_by s.length
decreasing_by
  exact splitFirst_snd_length responseMarker s a b (by decide) h

theorem splitOnMarker_eq_none (s : List Char)
    (h : splitFirst responseMarker s = none) : splitOnMarker s = [s] := by
  rw [splitOnMarker]
  split <;> simp_all

theorem splitOnMarker_eq_some (s a b : List Char)
    (h : splitFirst responseMarker s = some (a, b)) :
    splitOnMarker s = a :: splitOnMarker b := by
  rw [splitOnMarker]
  split <;> simp_all

/-- Python's `str.strip()`: remove leading and trailing whitespace. -/
def pyStrip (s : List Char) : List Char :=
  ((s.dropWhile Char.isWhitespace).reverse.dropWhile Char.isWhitespace).reverse

/-- generate_adapter.py lines 93-95:
`output.split("### Response:")[1].strip()`.  Index 1 of the split result
is taken without any check; when the marker is absent the split has a
single field and the indexing is out of range (Python raises IndexError),
made observable here as `none`. -/
def main_extract_response (output : List Char) : Option (List Char) :=
  ((splitOnMarker output).get? 1).map pyStrip

end GenerateAdapter

/-- Claim C7 (amended): when the decoded output contains the response
marker exactly once (no occurrence starting before the given one and none
after it), the printed result is the substring following the marker with
surrounding whitespace trimmed; when the marker occurs several times the
code instead prints the trimmed text between the first two occurrences;
and when the marker is absent the split-and-index extraction is an
unchecked out-of-range index (no result), not an explicit
generation-incomplete check. -/
theorem C7_response_marker_extraction (output pre post : List Char)
    (hdec : output = pre ++ GenerateAdapter.responseMarker ++ post)
    (hearly : ∀ i < pre.length,
      ¬ GenerateAdapter.responseMarker <+: output.drop i)
    (hpost : ¬ GenerateAdapter.responseMarker <:+: post) :
    GenerateAdapter.main_extract_response output
      = some (GenerateAdapter.pyStrip post)
    ∧ (∀ o : List Char, ¬ GenerateAdapter.responseMarker <:+: o →
        GenerateAdapter.main_extract_response o = none) := by
  constructor
  · subst hdec
    have h1 : GenerateAdapter.splitFirst GenerateAdapter.responseMarker
        (pre ++ GenerateAdapter.responseMarker ++ post) = some (pre, post) :=
      GenerateAdapter.splitFirst_of_decomp GenerateAdapter.responseMarker
        (by decide) pre post hearly
    have h2 : GenerateAdapter.splitFirst GenerateAdapter.responseMarker post
        = none :=
      (GenerateAdapter.splitFirst_none_iff GenerateAdapter.responseMarker
        (by decide) post).mpr hpost
    rw [GenerateAdapter.main_extract_response,
      GenerateAdapter.splitOnMarker_eq_some _ _ _ h1,
      GenerateAdapter.splitOnMarker_eq_none _ h2]
    rfl
  · intro o ho
    have h2 : GenerateAdapter.splitFirst GenerateAdapter.responseMarker o
        = none :=
      (GenerateAdapter.splitFirst_none_iff GenerateAdapter.responseMarker
        (by decide) o).mpr ho
    rw [GenerateAdapter.main_extract_response,
      GenerateAdapter.splitOnMarker_eq_none _ h2]
    rfl

/-- Counterexample to C7 as literally stated: on a decoded output
containing the marker twice, the code prints the trimmed text between the
first two occurrences, not the trimmed substring following the (first)
marker. -/
theorem C7_counterexample_two_markers :
    GenerateAdapter.main_extract_response
        "x### Response: A ### Response: B".toList
      = some "A".toList
    ∧ GenerateAdapter.pyStrip " A ### Response: B".toList
      = "A ### Response: B".toList
    ∧ ("A".toList : List Char) ≠ "A ### Response: B".toList := by
  have e1 : GenerateAdapter.splitFirst GenerateAdapter.responseMarker
      "x### Response: A ### Response: B".toList
      = some ("x".toList, " A ### Response: B".toList) := by decide
  have e2 : GenerateAdapter.splitFirst GenerateAdapter.responseMarker
      " A ### Response: B".toList = some (" A ".toList, " B".toList) := by decide
  have e3 : GenerateAdapter.splitFirst GenerateAdapter.responseMarker
      " B".toList = none := by decide
  refine ⟨?_, by decide, by decide⟩
  rw [GenerateAdapter.main_extract_response,
    GenerateAdapter.splitOnMarker_eq_some _ _ _ e1,
    GenerateAdapter.splitOnMarker_eq_some _ _ _ e2,
    GenerateAdapter.splitOnMarker_eq_none _ e3]
  decide

/-- Witness for C7 on a decoded output containing the marker exactly
once. -/
theorem C7_response_marker_extraction_witness :
    (("ab### Response: 42 ".toList : List Char)
        = "ab".toList ++ GenerateAdapter.responseMarker ++ " 42 ".toList
    ∧ (∀ i < ("ab".toList : List Char).length,
        ¬ GenerateAdapter.responseMarker <+: ("ab### Response: 42 ".toList).drop i)
    ∧ ¬ GenerateAdapter.responseMarker <:+: " 42 ".toList)
    ∧ (GenerateAdapter.main_extract_response "ab### Response: 42 ".toList
        = some (GenerateAdapter.pyStrip " 42 ".toList)
    ∧ (∀ o : List Char, ¬ GenerateAdapter.responseMarker <:+: o →
        GenerateAdapter.main_extract_response o = none)) :=
  ⟨⟨by decide, by decide, by decide⟩,
   C7_response_marker_extraction "ab### Response: 42 ".toList "ab".toList
     " 42 ".toList (by decide) (by decide) (by decide)⟩
